import Mathlib

/-
  Verification of the conversational RAG core (chatBot repository).

  Shallow embedding of the Python sources:
    storage/vector_store.py   (MilvusVectorStore.get_retriever, filter expression)
    storage/session_store.py  (SessionStore.add_message, Redis RPUSH + LTRIM)
    core/chains.py            (format_docs, get_rag_prompt_messages, astream_rag)
    api/endpoints.py          (stream_generator, _background_pipeline,
                               upload_knowledge_file)
    services/llm_service.py   (LLMService.chat_stream, LLMService.chat)

  Machine integers do not occur in the verified fragment; strings are Lean
  strings, Redis lists and filesystems are Lean lists, fallible calls are
  modelled by explicit outcome types.
-/

set_option autoImplicit false

namespace ChatBot

/-- Document models a LangChain Document as stored in Milvus: the page
content plus the metadata fields this verification needs.  Metadata keys
may be absent, hence the Option types (metadata.get returns a default). -/
structure Document where
  page_content : String
  source : Option String
  user_id_card : Option String
deriving DecidableEq, Repr

/- ------------------------------------------------------------------ -/
/- C1: MilvusVectorStore.get_retriever and the owner-scope filter.
   vector_store.py lines 216-227:

     search_kwargs = {"k": k}
     if user_id_card:
         search_kwargs["expr"] = f"user_id_card == .{user_id_card}."
     return self.vector_store.as_retriever(search_type="mmr",
                                           search_kwargs=search_kwargs)

   (the dots above stand for single quote characters).  The expr string is
   handed to Milvus, which evaluates it as a boolean expression over each
   entity.  Below: the expr construction exactly as the source builds it,
   and an evaluator for the fragment of the Milvus boolean expression
   grammar reachable from these strings (disjunctions of equality and
   inequality atoms on the user_id_card field with single-quoted string
   literals). -/

/-- singleQuoteChar is the ASCII apostrophe used by the f-string in
get_retriever to delimit the Milvus string literal. -/
def singleQuoteChar : Char := Char.ofNat 39

/-- singleQuote is the one-character string of singleQuoteChar. -/
def singleQuote : String := String.singleton singleQuoteChar

/-- splitOnOrSep splits a character list at every occurrence of the
four-character Milvus disjunction separator (space, pipe, pipe, space),
the way the Milvus expression grammar separates top-level disjuncts. -/
def splitOnOrSep : List Char → List Char → List (List Char)
  | [], acc => [acc.reverse]
  | ' ' :: '|' :: '|' :: ' ' :: rest, acc => acc.reverse :: splitOnOrSep rest []
  | c :: rest, acc => splitOnOrSep rest (c :: acc)

/-- dropPrefixChars returns the remainder of the second list after the
first list, when the first list is a prefix of it, and none otherwise. -/
def dropPrefixChars : List Char → List Char → Option (List Char)
  | [], rest => some rest
  | _ :: _, [] => none
  | p :: ps, c :: cs => if p = c then dropPrefixChars ps cs else none

/-- eqAtomHead is the leading text of a Milvus equality atom on the
user_id_card field, up to and including the opening quote. -/
def eqAtomHead : List Char := "user_id_card == ".data ++ [singleQuoteChar]

/-- neAtomHead is the leading text of a Milvus inequality atom on the
user_id_card field, up to and including the opening quote. -/
def neAtomHead : List Char := "user_id_card != ".data ++ [singleQuoteChar]

/-- evalAtom evaluates one disjunct of a Milvus filter expression against
the user_id_card metadata value of an entity.  Recognised atoms compare
the field with a single-quoted string literal; anything else is treated
as not matching. -/
def evalAtom (atom : List Char) (owner : Option (List Char)) : Bool :=
  match dropPrefixChars eqAtomHead atom with
  | some rest =>
      if rest.getLast? = some singleQuoteChar then
        decide (owner = some rest.dropLast)
      else false
  | none =>
      match dropPrefixChars neAtomHead atom with
      | some rest =>
          if rest.getLast? = some singleQuoteChar then
            ! decide (owner = some rest.dropLast)
          else false
      | none => false

/-- evalMilvusExpr evaluates a filter expression string against the
user_id_card metadata of an entity: the expression is the disjunction of
its top-level atoms. -/
def evalMilvusExpr (expr : String) (owner : Option String) : Bool :=
  (splitOnOrSep expr.data []).any fun atom => evalAtom atom (owner.map String.data)

/-- get_retriever_expr is the filter expression MilvusVectorStore.get_retriever
attaches to the search: none when user_id_card is None or empty (Python
truthiness of the if), and otherwise the f-string interpolation
of the scope between single quotes, with no escaping. -/
def get_retriever_expr (user_id_card : Option String) : Option String :=
  match user_id_card with
  | none => none
  | some u =>
      if u = "" then none
      else some ("user_id_card == " ++ singleQuote ++ u ++ singleQuote)

/-- retrieveScoped is the candidate set the retriever built by
get_retriever can draw from: the whole corpus when no filter expression
was attached, else the chunks satisfying the expression.  The mmr search
then returns a subset of this set, so any returned chunk is in it. -/
def retrieveScoped (corpus : List Document) (user_id_card : Option String) :
    List Document :=
  match get_retriever_expr user_id_card with
  | none => corpus
  | some e => corpus.filter fun d => evalMilvusExpr e d.user_id_card

/-- injectionScope is a crafted owner scope: the text x, a closing quote,
a Milvus disjunction, and an inequality atom left open so that the
closing quote appended by the f-string completes it. -/
def injectionScope : String :=
  "x" ++ singleQuote ++ " || user_id_card != " ++ singleQuote ++ "x"

/-- foreignChunk is a chunk owned by user y, a different owner than any
scope built from injectionScope. -/
def foreignChunk : Document :=
  { page_content := "confidential content of user y"
    source := some "y_private.pdf"
    user_id_card := some "y" }

/- ------------------------------------------------------------------ -/
/- C3: SessionStore.add_message, session_store.py lines 164-188.

     pipe.rpush(messages_key, message_json)
     pipe.ltrim(messages_key, -20, -1)
     await pipe.execute()

   The redis-py pipeline defaults to a MULTI/EXEC transaction, so the
   push and the trim are applied atomically: a reader observes only the
   state after both.  A stored message is modelled by its role and
   content pair. -/

/-- ltrimLast models the Redis command LTRIM key (-n) (-1): it keeps the
last n elements of the list (the whole list when it is shorter). -/
def ltrimLast {α : Type} (n : Nat) (l : List α) : List α :=
  l.drop (l.length - n)

/-- add_message is the atomic effect of SessionStore.add_message on the
stored message log of one session: append the new message, then trim to
the most recent 20 entries. -/
def add_message (log : List (String × String)) (role content : String) :
    List (String × String) :=
  ltrimLast 20 (log ++ [(role, content)])

/-- addMessages appends a whole sequence of messages one
add_message call at a time, in order. -/
def addMessages (log : List (String × String)) (msgs : List (String × String)) :
    List (String × String) :=
  msgs.foldl (fun acc m => add_message acc m.1 m.2) log

/- ------------------------------------------------------------------ -/
/- C2, C6, C8: stream_generator, api/endpoints.py lines 46-111.

   The generator consumes the astream_events stream of the chain,
   multiplexes SSE events to the client, accumulates the final answer in
   full_response, then appends the human and ai messages to the session
   store, and in a finally block always emits the literal DONE sentinel.
   The execution is modelled as a trace of actions: SSE emissions and
   history appends, in program order. -/

/-- SSEvent is one JSON payload written to the event stream by
stream_generator, or the final literal DONE sentinel. -/
inductive SSEvent where
  | status (text : String)
  | content (text : String)
  | sources (data : List String)
  | error (text : String)
  | done
deriving DecidableEq, Repr

/-- StreamEvent is one event received from chain.astream_events: a chat
model stream chunk tagged with the run name, a retriever start or end, or
any other event kind (ignored by the generator). -/
inductive StreamEvent where
  | chatModelStream (name : String) (chunkContent : String)
  | retrieverStart
  | retrieverEnd (docs : List Document)
  | otherEvent (kind : String)
deriving DecidableEq, Repr

/-- Action is one observable step of the generator: an SSE emission or a
session-store append of (role, content). -/
inductive Action where
  | emit (e : SSEvent)
  | append (role : String) (content : String)
deriving DecidableEq, Repr

/-- sourcesOf models found_sources: the deduplicated source metadata of
the retrieved documents, with the default Unknown for a missing source
(list(set(...)) in the source; the set iteration order is modelled as
first-occurrence order). -/
def sourcesOf (docs : List Document) : List String :=
  ((docs.map fun d => d.source.getD "Unknown")).eraseDups

/-- stepEvent is the body of the async-for loop of stream_generator for
one incoming event: given the accumulated full_response and
found_sources it returns their new values and the SSE events emitted for
this event.  Empty chunk content is skipped, QuestionRewriter chunks are
dropped, AnswerGenerator chunks are accumulated and forwarded as content
events, retriever start/end emit status events. -/
def stepEvent (full : String) (srcs : List String) :
    StreamEvent → String × List String × List SSEvent
  | .chatModelStream nm c =>
      if c = "" then (full, srcs, [])
      else if nm = "QuestionRewriter" then (full, srcs, [])
      else if nm = "AnswerGenerator" then (full ++ c, srcs, [.content c])
      else (full, srcs, [])
  | .retrieverStart => (full, srcs, [.status "Searching knowledge base..."])
  | .retrieverEnd docs =>
      if docs.isEmpty then (full, srcs, [])
      else (full, sourcesOf docs,
            [.status ("Found " ++ toString docs.length ++ " relevant docs")])
  | .otherEvent _ => (full, srcs, [])

/-- runEvents folds stepEvent over the whole event stream, returning the
final full_response, the final found_sources and the concatenation of
everything emitted inside the loop. -/
def runEvents : List StreamEvent → String → List String →
    String × List String × List SSEvent
  | [], full, srcs => (full, srcs, [])
  | e :: rest, full, srcs =>
      let s := stepEvent full srcs e
      let r := runEvents rest s.1 s.2.1
      (r.1, r.2.1, s.2.2 ++ r.2.2)

/-- sourcesEvent is step 4 of stream_generator: one sources event when
found_sources is non-empty, nothing otherwise. -/
def sourcesEvent (srcs : List String) : List SSEvent :=
  if srcs.isEmpty then [] else [.sources srcs]

/-- FailPoint locates the exception that routed the generator into its
except clause: inside the async-for loop, inside the first add_message
(human), or inside the second add_message (ai). -/
inductive FailPoint where
  | inLoop
  | inHumanSave
  | inAiSave
deriving DecidableEq, Repr

/-- streamTrace is the full observable behaviour of stream_generator for
one request: the initial status event, the loop emissions, and then
either the success tail (sources event, the two history appends, DONE)
or the failure tail (error event with the exception text, then DONE from
the finally block).  events is the part of the astream_events stream the
loop consumed before the run ended. -/
def streamTrace (message : String) (events : List StreamEvent)
    (failure : Option (FailPoint × String)) : List Action :=
  let r := runEvents events "" []
  let loopActs : List Action :=
    .emit (.status "Understanding context...") :: r.2.2.map .emit
  match failure with
  | none =>
      loopActs ++ (sourcesEvent r.2.1).map .emit
        ++ [.append "human" message, .append "ai" r.1, .emit .done]
  | some (.inLoop, msg) =>
      loopActs ++ [.emit (.error msg), .emit .done]
  | some (.inHumanSave, msg) =>
      loopActs ++ (sourcesEvent r.2.1).map .emit
        ++ [.emit (.error msg), .emit .done]
  | some (.inAiSave, msg) =>
      loopActs ++ (sourcesEvent r.2.1).map .emit
        ++ [.append "human" message, .emit (.error msg), .emit .done]

/-- emittedOf projects a trace to the SSE events sent to the client, in
emission order. -/
def emittedOf (tr : List Action) : List SSEvent :=
  tr.filterMap fun a =>
    match a with
    | .emit e => some e
    | .append _ _ => none

/-- appendsOf projects a trace to the history appends, in order. -/
def appendsOf (tr : List Action) : List (String × String) :=
  tr.filterMap fun a =>
    match a with
    | .emit _ => none
    | .append r c => some (r, c)

/-- concatStrings concatenates a list of strings in order, the model of
accumulating text with repeated string addition. -/
def concatStrings : List String → String
  | [] => ""
  | s :: rest => s ++ concatStrings rest

/-- contentConcat is the concatenation, in emission order, of the text of
all content events of a stream. -/
def contentConcat (evs : List SSEvent) : String :=
  concatStrings (evs.filterMap fun e =>
    match e with
    | .content t => some t
    | _ => none)

/-- isEmit tells whether a trace action is an SSE emission (as opposed to
a history append). -/
def isEmit : Action → Bool
  | .emit _ => true
  | .append _ _ => false

/-- astream_rag_trace models core/chains.py astream_rag lines 144-162: it
appends the user message before streaming, yields every string chunk the
LLM streams while accumulating full_response, and appends the assistant
message with the accumulated text after the stream ends.  chunks is the
list of string contents the LLM stream produced. -/
def astream_rag_trace (question : String) (chunks : List String) : List Action :=
  .append "user" question
    :: (chunks.map fun c => Action.emit (.content c))
    ++ [.append "assistant" (concatStrings chunks)]

/- ------------------------------------------------------------------ -/
/- C4, C7: format_docs (chains.py lines 48-53) and
   get_rag_prompt_messages (chains.py lines 95-126). -/

/-- PromptMsg is one LangChain chat message of the final prompt list. -/
inductive PromptMsg where
  | system (content : String)
  | human (content : String)
  | ai (content : String)
deriving DecidableEq, Repr

/-- RagEffect is one external call issued while building the RAG prompt:
a generation (LLM) endpoint invocation, a retriever search with its query
string, or a session-store history fetch. -/
inductive RagEffect where
  | generationCall
  | retrieverCall (query : String)
  | historyFetch (sessionId : String)
deriving DecidableEq, Repr

/-- format_docs joins the retrieved documents into the context string
injected into the prompt, one line per document with its source metadata
(default N/A) and page content, separated by blank lines. -/
def format_docs (docs : List Document) : String :=
  String.intercalate "\n\n"
    (docs.map fun doc =>
      "来源: " ++ doc.source.getD "N/A" ++ ". 内容: " ++ doc.page_content)

/-- litmReorderAux is the lost-in-the-middle reordering loop of the
LongContextReorder document transformer applied in
get_rag_prompt_messages: iterate over the reversed input, appending items
at odd positions to the back and inserting items at even positions at the
front of the result. -/
def litmReorderAux : List Document → Nat → List Document → List Document
  | [], _, acc => acc
  | d :: rest, i, acc =>
      if i % 2 = 1 then litmReorderAux rest (i + 1) (acc ++ [d])
      else litmReorderAux rest (i + 1) (d :: acc)

/-- longContextReorder is LongContextReorder.transform_documents. -/
def longContextReorder (docs : List Document) : List Document :=
  litmReorderAux docs.reverse 0 []

/-- rag_context is the context string get_rag_prompt_messages computes
from the retrieved documents: reorder, then format. -/
def rag_context (docs : List Document) : String :=
  format_docs (longContextReorder docs)

/-- ragSystemTemplate is the system message of RAG_PROMPT (chains.py
lines 24-39) with the context variable substituted, exactly as
get_rag_prompt_messages formats it. -/
def ragSystemTemplate (context : String) : String :=
  "你是一个严谨、专业的知识助手，必须严格遵守以下规则：\n" ++
  "1. 你只能使用【检索到的上下文】中的信息来回答问题。\n" ++
  "2. 如果上下文无法回答，就直接说“我无法根据已有知识库回答这个问题”，禁止编造。\n" ++
  "3. 回答要简洁、专业、结构化，使用中文。\n" ++
  "4. 如果答案在多个片段中，请整合后给出完整答案。\n" ++
  "5. 引用时使用自然语言，不要出现 [1][2] 这种格式。\n" ++
  "\n【检索到的上下文】：\n" ++ context ++ "\n"

/-- format_history_for_prompt converts stored history items (role,
content) to LangChain messages: user roles become human messages,
assistant roles become ai messages, anything else is dropped (chains.py
lines 55-83, the dict branch). -/
def format_history_for_prompt (history : List (String × String)) :
    List PromptMsg :=
  history.filterMap fun rc =>
    if rc.1 = "user" then some (.human rc.2)
    else if rc.1 = "assistant" then some (.ai rc.2)
    else none

/-- RagBuild is the result of get_rag_prompt_messages: the external calls
it issued, in order, and the prompt message list it returns. -/
structure RagBuild where
  effects : List RagEffect
  messages : List PromptMsg
deriving DecidableEq, Repr

/-- get_rag_prompt_messages embeds chains.py lines 95-126: fetch the
session history, call the retriever once with the question verbatim,
reorder and format the retrieved documents into the context, and return
the system message followed by the converted history and the human
question.  retriever stands for the external vector search; history is
the stored log the history fetch returns.  No generation call occurs
anywhere in this function. -/
def get_rag_prompt_messages (question sessionId : String)
    (history : List (String × String)) (retriever : String → List Document) :
    RagBuild :=
  let docs := retriever question
  let context_str := rag_context docs
  { effects := [.historyFetch sessionId, .retrieverCall question]
    messages := .system (ragSystemTemplate context_str)
      :: format_history_for_prompt history ++ [.human question] }

/- ------------------------------------------------------------------ -/
/- C5: _background_pipeline, api/endpoints.py lines 131-187.

     generated_md_path = None
     try:
         markdown_content, generated_md_path = await ocr_service.file_to_markdown(...)
         ...
         await vector_store.index_markdown_content(final_markdown, metadata)
     except Exception as e: log
     finally:
         if os.path.exists(local_file_path): os.remove(local_file_path)
         if generated_md_path and os.path.exists(generated_md_path):
             os.remove(generated_md_path)

   The scratch filesystem is a list of paths.  The remote OCR service
   writes the markdown file to the shared disk before file_to_markdown
   returns, so the OCR call has three observable outcomes
   (ocr_service.py lines 23-52): failure before any file was written
   (connection error, non-200 HTTP status with no file); failure after
   the service wrote md_file_path (resp.json() fails to parse, the
   service reports an internal error after writing, or the UTF-8 read of
   the written file raises) - the exception propagates and no path
   reaches the pipeline although the file exists; or success returning
   the content and the written path.  Indexing either succeeds or
   raises; it writes no scratch file.  The finally block runs on every
   path, but it can only remove paths the pipeline knows. -/

/-- removeIfExists models: if os.path.exists(p): os.remove(p). -/
def removeIfExists (fs : List String) (p : String) : List String :=
  fs.filter fun q => q != p

/-- OcrOutcome is the result of ocr_service.file_to_markdown as observed
by _background_pipeline, together with what the call left on disk:
failure with no file written, failure after the OCR service wrote the
markdown file (the path never reaches the pipeline because the exception
propagates first), or success with the content and the written path. -/
inductive OcrOutcome where
  | ocrFailClean
  | ocrFailAfterWrite (mdPath : String)
  | ocrOk (content : String) (mdPath : String)
deriving DecidableEq, Repr

/-- background_pipeline returns the scratch filesystem after the pipeline
finishes, and whether the file was indexed.  On either OCR failure the
generated_md_path variable is still None, so the finally block removes
only the uploaded file - even when the OCR service had already written
the markdown file to disk; on OCR success the written markdown file
joins the filesystem and the finally block removes both paths, whether
or not indexing succeeded. -/
def background_pipeline (fs : List String) (localPath : String)
    (ocr : OcrOutcome) (indexOk : Bool) : List String × Bool :=
  match ocr with
  | .ocrFailClean => (removeIfExists fs localPath, false)
  | .ocrFailAfterWrite mdPath =>
      (removeIfExists (mdPath :: fs) localPath, false)
  | .ocrOk _ mdPath =>
      (removeIfExists (removeIfExists (mdPath :: fs) localPath) mdPath, indexOk)

/- ------------------------------------------------------------------ -/
/- C9: upload_knowledge_file, api/endpoints.py lines 190-249.  The loop
   over the submitted files checks the lowered extension against the
   allowed list, tries to save the upload into the shared directory, and
   on success queues a background pipeline task; every failure appends a
   per-file rejection record and continues with the next file. -/

/-- UploadFile is one submitted file: its client-supplied filename and
whether writing it into the shared directory succeeds (the outcome of
the external copy). -/
structure UploadFile where
  filename : String
  saveOk : Bool
deriving DecidableEq, Repr

/-- allowed_exts is the allowlist of extensions in upload_knowledge_file. -/
def allowed_exts : List String := [".pdf", ".jpg", ".png", ".jpeg"]

/-- lastDotIdx returns the index of the last dot of a character list. -/
def lastDotIdx : List Char → Option Nat
  | [] => none
  | c :: rest =>
      match lastDotIdx rest with
      | some i => some (i + 1)
      | none => if c = '.' then some 0 else none

/-- splitextExtension models os.path.splitext(name)[1].lower() for a bare
filename: the suffix from the last dot on, lowercased, unless every
character before that dot is itself a dot (a leading-dots name has no
extension), in which case the extension is empty. -/
def splitextExtension (name : String) : String :=
  match lastDotIdx name.data with
  | none => ""
  | some i =>
      if (name.data.take i).any (fun c => c != '.') then
        String.mk ((name.data.drop i).map Char.toLower)
      else ""

/-- BatchResult is the response assembled by upload_knowledge_file: the
accepted filenames, the rejection records (filename, reason), and the
filenames whose background pipeline task was queued, each in submission
order. -/
structure BatchResult where
  success_files : List String
  failed_files : List (String × String)
  queued : List String
deriving DecidableEq, Repr

/-- fileAccepted tells whether one file passes both per-file checks. -/
def fileAccepted (f : UploadFile) : Bool :=
  allowed_exts.contains (splitextExtension f.filename) && f.saveOk

/-- fileRejection is the rejection record the loop emits for one file,
none when the file is accepted. -/
def fileRejection (f : UploadFile) : Option (String × String) :=
  if ! allowed_exts.contains (splitextExtension f.filename) then
    some (f.filename, "Unsupported format")
  else if ! f.saveOk then some (f.filename, "Save failed")
  else none

/-- upload_knowledge_file embeds the per-file loop: an unsupported
extension or a failed save appends a rejection record and continues; an
accepted file is recorded and its background task queued. -/
def upload_knowledge_file : List UploadFile → BatchResult
  | [] => ⟨[], [], []⟩
  | f :: rest =>
      if ! allowed_exts.contains (splitextExtension f.filename) then
        let r := upload_knowledge_file rest
        ⟨r.success_files, (f.filename, "Unsupported format") :: r.failed_files,
         r.queued⟩
      else if ! f.saveOk then
        let r := upload_knowledge_file rest
        ⟨r.success_files, (f.filename, "Save failed") :: r.failed_files, r.queued⟩
      else
        let r := upload_knowledge_file rest
        ⟨f.filename :: r.success_files, r.failed_files, f.filename :: r.queued⟩

/- ------------------------------------------------------------------ -/
/- C10: LLMService.chat_stream and LLMService.chat, llm_service.py lines
   88-171.  The streaming generator parses the SSE lines of the
   inference response; every except branch yields the human-readable
   error message as one more ordinary string chunk and falls off the end
   of the generator.  The codomain List String has no error channel:
   nothing distinguishes the failure text from answer content. -/

/-- VllmLine is one line of the inference SSE response after transport
decoding: the DONE marker, a data line whose JSON carried an optional
delta content, a data line that fails to parse as JSON, or a line
without the data prefix.  The JSON decoding itself is the external
json library, modelled by the constructor choice. -/
inductive VllmLine where
  | doneLine
  | payload (content : Option String)
  | malformed
  | nonData
deriving DecidableEq, Repr

/-- FailKind is the except clause taken by chat_stream: an HTTP error
status from raise_for_status, an httpx timeout, or any other exception
with its text. -/
inductive FailKind where
  | httpStatus (code : Nat)
  | timeout
  | other (msg : String)
deriving DecidableEq, Repr

/-- failMessage is the human-readable error text each except branch of
chat_stream builds (f-strings of llm_service.py lines 160-171). -/
def failMessage (timeoutSecs : Nat) : FailKind → String
  | .httpStatus code => "模型服务返回 HTTP 错误: " ++ toString code
  | .timeout => "模型调用超时 - 超时设置: " ++ toString timeoutSecs ++ "s"
  | .other m => "模型调用失败: " ++ m

/-- UpstreamOutcome is what the inference endpoint does for one request:
fail before any line is delivered (connection error, bad status,
timeout), or deliver a list of SSE lines, optionally followed by an
exception raised mid-iteration. -/
inductive UpstreamOutcome where
  | immediateFailure (k : FailKind)
  | stream (lines : List VllmLine) (midFailure : Option FailKind)
deriving DecidableEq, Repr

/-- processLines is the async-for loop over response.aiter_lines: the
DONE marker breaks the loop, a parsed content that is non-empty is
yielded, empty or missing content and malformed or non-data lines are
skipped. -/
def processLines : List VllmLine → List String
  | [] => []
  | .doneLine :: _ => []
  | .payload (some c) :: rest =>
      if c = "" then processLines rest else c :: processLines rest
  | .payload none :: rest => processLines rest
  | .malformed :: rest => processLines rest
  | .nonData :: rest => processLines rest

/-- chat_stream is the full list of string chunks the generator yields
for one request: the parsed contents, followed by exactly one error
message chunk when an except branch ran.  The generator never raises and
never ends with anything but a plain string. -/
def chat_stream (timeoutSecs : Nat) : UpstreamOutcome → List String
  | .immediateFailure k => [failMessage timeoutSecs k]
  | .stream lines none => processLines lines
  | .stream lines (some k) => processLines lines ++ [failMessage timeoutSecs k]

/-- chat is LLMService.chat: it accumulates every chunk of chat_stream
with string addition into full_answer, the answer it returns. -/
def chat (timeoutSecs : Nat) (o : UpstreamOutcome) : String :=
  (chat_stream timeoutSecs o).foldl (fun acc s => acc ++ s) ""

/- ------------------------------------------------------------------ -/
/- Helper lemmas. -/

/-- concatStrings distributes over list append. -/
theorem concatStrings_append (a b : List String) :
    concatStrings (a ++ b) = concatStrings a ++ concatStrings b := by
  induction a with
  | nil => simp [concatStrings]
  | cons s rest ih => simp [concatStrings, ih, String.append_assoc]

/-- contentConcat distributes over list append. -/
theorem contentConcat_append (a b : List SSEvent) :
    contentConcat (a ++ b) = contentConcat a ++ contentConcat b := by
  simp [contentConcat, List.filterMap_append, concatStrings_append]

/-- runEvents accumulates in full_response exactly the concatenation of
the content events it emits. -/
theorem runEvents_content (evs : List StreamEvent) :
    ∀ full srcs, (runEvents evs full srcs).1 =
      full ++ contentConcat (runEvents evs full srcs).2.2 := by
  induction evs with
  | nil => intro full srcs; simp [runEvents, contentConcat, concatStrings]
  | cons e rest ih =>
      intro full srcs
      rw [runEvents]
      rw [contentConcat_append]
      cases e with
      | chatModelStream nm c =>
          by_cases hc : c = "" <;>
            by_cases hq : nm = "QuestionRewriter" <;>
              by_cases ha : nm = "AnswerGenerator" <;>
                simp_all [stepEvent, contentConcat, concatStrings,
                  String.append_assoc, ih]
      | retrieverStart =>
          simpa [stepEvent, contentConcat, concatStrings] using ih full srcs
      | retrieverEnd docs =>
          by_cases hd : docs.isEmpty <;>
            simp_all [stepEvent, contentConcat, concatStrings, ih]
      | otherEvent k =>
          simpa [stepEvent, contentConcat, concatStrings] using ih full srcs

/-- appendsOf ignores pure emission segments. -/
theorem appendsOf_emits (evs : List SSEvent) :
    appendsOf (evs.map Action.emit) = [] := by
  simp [appendsOf, List.filterMap_map, Function.comp]

/-- emittedOf recovers the emitted events from a pure emission segment. -/
theorem emittedOf_emits (evs : List SSEvent) :
    emittedOf (evs.map Action.emit) = evs := by
  induction evs with
  | nil => rfl
  | cons e rest ih => simpa [emittedOf] using ih

/-- getLast? of a list ending in two fixed elements is the second. -/
theorem getLast?_append_pair (l : List SSEvent) (a b : SSEvent) :
    (l ++ [a, b]).getLast? = some b := by
  rw [show l ++ [a, b] = (l ++ [a]) ++ [b] by simp]
  exact List.getLast?_concat _

/-- neither status, sources, error nor done events contribute to
contentConcat. -/
theorem contentConcat_status (t : String) (l : List SSEvent) :
    contentConcat (SSEvent.status t :: l) = contentConcat l := by
  simp [contentConcat]

/-- sourcesEvent emits no content event. -/
theorem contentConcat_sourcesEvent (srcs : List String) (l : List SSEvent) :
    contentConcat (sourcesEvent srcs ++ l) = contentConcat l := by
  by_cases h : srcs.isEmpty <;> simp [sourcesEvent, h, contentConcat]

/-- ltrimLast keeps at most n elements. -/
theorem ltrimLast_length_le {α : Type} (n : Nat) (l : List α) :
    (ltrimLast n l).length ≤ n := by
  simp [ltrimLast]
  omega

/-- trimming, appending more, and trimming again is the same as trimming
once at the end. -/
theorem ltrimLast_absorb {α : Type} (n : Nat) (xs ms : List α) :
    ltrimLast n (ltrimLast n xs ++ ms) = ltrimLast n (xs ++ ms) := by
  unfold ltrimLast
  rw [show xs.drop (xs.length - n) ++ ms = (xs ++ ms).drop (xs.length - n) from
    (List.drop_append_of_le_length (by omega)).symm]
  rw [List.drop_drop]
  congr 1
  simp [List.length_drop, List.length_append]
  omega

/-- addMessages from a log within the cap equals one final trim. -/
theorem addMessages_eq (msgs : List (String × String)) :
    ∀ log : List (String × String), log.length ≤ 20 →
      addMessages log msgs = ltrimLast 20 (log ++ msgs) := by
  induction msgs with
  | nil =>
      intro log h
      simp [addMessages, ltrimLast, Nat.sub_eq_zero_of_le h]
  | cons m ms ih =>
      intro log h
      have hlen : (add_message log m.1 m.2).length ≤ 20 :=
        ltrimLast_length_le 20 (log ++ [(m.1, m.2)])
      have step : addMessages log (m :: ms) =
          addMessages (add_message log m.1 m.2) ms := rfl
      rw [step, ih _ hlen]
      have hadd : add_message log m.1 m.2 = ltrimLast 20 (log ++ [m]) := rfl
      rw [hadd, ltrimLast_absorb]
      simp

/-- upload_knowledge_file is pointwise: accepted and queued files are the
files passing both checks, rejections are the per-file rejection
records, all in submission order. -/
theorem upload_knowledge_file_eq (files : List UploadFile) :
    upload_knowledge_file files =
      ⟨(files.filter fileAccepted).map UploadFile.filename,
       files.filterMap fileRejection,
       (files.filter fileAccepted).map UploadFile.filename⟩ := by
  induction files with
  | nil => rfl
  | cons f rest ih =>
      cases hext : allowed_exts.contains (splitextExtension f.filename) with
      | false =>
          have hacc : fileAccepted f = false := by
            unfold fileAccepted
            rw [hext]
            simp
          have hrej : fileRejection f = some (f.filename, "Unsupported format") := by
            unfold fileRejection
            rw [hext]
            simp
          simp only [upload_knowledge_file]
          rw [hext]
          simp [ih, List.filter_cons, List.filterMap_cons, hacc, hrej]
      | true =>
          cases hsave : f.saveOk with
          | false =>
              have hacc : fileAccepted f = false := by
                unfold fileAccepted
                rw [hext, hsave]
                simp
              have hrej : fileRejection f = some (f.filename, "Save failed") := by
                unfold fileRejection
                rw [hext, hsave]
                simp
              simp only [upload_knowledge_file]
              rw [hext, hsave]
              simp [ih, List.filter_cons, List.filterMap_cons, hacc, hrej]
          | true =>
              have hacc : fileAccepted f = true := by
                unfold fileAccepted
                rw [hext, hsave]
                simp
              have hrej : fileRejection f = none := by
                unfold fileRejection
                rw [hext, hsave]
                simp
              simp only [upload_knowledge_file]
              rw [hext, hsave]
              simp [ih, List.filter_cons, List.filterMap_cons, hacc, hrej]

/-- a file failing either check produces a rejection record under its own
filename. -/
theorem fileRejection_of_not_accepted (f : UploadFile)
    (h : fileAccepted f = false) :
    ∃ reason, fileRejection f = some (f.filename, reason) := by
  cases hext : allowed_exts.contains (splitextExtension f.filename) with
  | false =>
      refine ⟨"Unsupported format", ?_⟩
      unfold fileRejection
      rw [hext]
      simp
  | true =>
      have hsave : f.saveOk = false := by
        unfold fileAccepted at h
        rw [hext] at h
        simpa using h
      refine ⟨"Save failed", ?_⟩
      unfold fileRejection
      rw [hext, hsave]
      simp

/-- appendsOf distributes over list append. -/
theorem appendsOf_append (a b : List Action) :
    appendsOf (a ++ b) = appendsOf a ++ appendsOf b := by
  simp [appendsOf, List.filterMap_append]

/-- emittedOf distributes over list append. -/
theorem emittedOf_append (a b : List Action) :
    emittedOf (a ++ b) = emittedOf a ++ emittedOf b := by
  simp [emittedOf, List.filterMap_append]

/-- contentConcat of a pure content stream is the chunk concatenation. -/
theorem contentConcat_contents (chunks : List String) :
    contentConcat (chunks.map SSEvent.content) = concatStrings chunks := by
  induction chunks with
  | nil => rfl
  | cons c rest ih => simp [contentConcat, concatStrings] at ih ⊢; rw [ih]

/-- a mapped emission segment consists of emissions only. -/
theorem all_isEmit_map_emit (evs : List SSEvent) :
    (evs.map Action.emit).all isEmit = true := by
  induction evs with
  | nil => rfl
  | cons e rest ih => simp [isEmit, ih]

/-- the sources event of a turn contributes no content text. -/
theorem contentConcat_sourcesEvent_right (l : List SSEvent) (srcs : List String) :
    contentConcat (l ++ sourcesEvent srcs) = contentConcat l := by
  by_cases h : srcs.isEmpty <;>
    simp [sourcesEvent, h, contentConcat_append, contentConcat, concatStrings]

/- ------------------------------------------------------------------ -/
/- Claim theorems. -/

/-- C1: the code_bug evidence.  The claim states that a retriever built
with a non-null user_id_card owner scope can return only chunks whose
user_id_card metadata equals the requested scope, for any crafted scope
string.  The code interpolates the scope unescaped into the Milvus filter
expression, so the crafted scope injectionScope (containing a quote
character) turns the filter into the tautology shown below, and the chunk
foreignChunk owned by the different user y passes the filter and can be
returned. -/
theorem C1_owner_scope_filter_injection :
    retrieveScoped [foreignChunk] (some injectionScope) = [foreignChunk] ∧
    foreignChunk.user_id_card ≠ some injectionScope ∧
    get_retriever_expr (some injectionScope) =
      some ("user_id_card == " ++ singleQuote ++ "x" ++ singleQuote ++
        " || user_id_card != " ++ singleQuote ++ "x" ++ singleQuote) := by
  refine ⟨by decide, by decide, by decide⟩

/-- C3: for every session log and every add_message call the stored log
never exceeds 20 entries (the RPUSH and the LTRIM to the last 20 execute
in one transaction), and appending more than 20 messages to a fresh
session leaves exactly the most recent 20 in their original relative
order. -/
theorem C3_history_cap_and_fifo :
    (∀ (log : List (String × String)) (role content : String),
        (add_message log role content).length ≤ 20) ∧
    (∀ msgs : List (String × String), 20 < msgs.length →
        addMessages [] msgs = msgs.drop (msgs.length - 20)) := by
  constructor
  · intro log role content
    exact ltrimLast_length_le 20 _
  · intro msgs _
    have h := addMessages_eq msgs [] (by simp)
    simpa [ltrimLast] using h

/-- C3 witness: appending 21 concrete messages to an empty session leaves
exactly the last 20 of them. -/
theorem C3_history_cap_and_fifo_witness :
    addMessages [] ((List.range 21).map fun i => ("user", toString i)) =
      ((List.range 21).map fun i => ("user", toString i)).drop 1 := by
  have h := C3_history_cap_and_fifo.2
    ((List.range 21).map fun i => ("user", toString i)) (by simp)
  simpa using h

/-- background_pipeline always removes the uploaded scratch file, on
every outcome of OCR and indexing. -/
theorem background_pipeline_upload_removed
    (fs : List String) (localPath : String) (ocr : OcrOutcome)
    (indexOk : Bool) :
    localPath ∉ (background_pipeline fs localPath ocr indexOk).1 := by
  cases ocr with
  | ocrFailClean =>
      simp [background_pipeline, removeIfExists, List.mem_filter]
  | ocrFailAfterWrite p =>
      simp [background_pipeline, removeIfExists, List.mem_filter]
  | ocrOk c p =>
      simp [background_pipeline, removeIfExists, List.mem_filter]

/-- background_pipeline removes the markdown file on the paths where its
path was returned to the pipeline (OCR success, whatever indexing did). -/
theorem background_pipeline_md_removed_when_returned
    (fs : List String) (localPath content mdPath : String) (indexOk : Bool) :
    mdPath ∉
      (background_pipeline fs localPath (OcrOutcome.ocrOk content mdPath)
        indexOk).1 := by
  simp [background_pipeline, removeIfExists, List.mem_filter]

/-- C5: the code_bug evidence.  The claim states that on every exit path
of _background_pipeline any intermediate extracted markdown file that
was produced is deleted before the pipeline finishes.  When
ocr_service.file_to_markdown raises after the remote OCR service has
written the markdown file (JSON parse failure, internal-error report
after writing, or UTF-8 read failure of the written file), no markdown
path reaches the pipeline, so the finally block removes only the
uploaded file: at this concrete failing run the upload is deleted but
the produced markdown file survives the pipeline. -/
theorem C5_markdown_leak_on_late_ocr_failure :
    (background_pipeline ["/mnt/in.pdf"] "/mnt/in.pdf"
        (OcrOutcome.ocrFailAfterWrite "/mnt/out.md") false).1
      = ["/mnt/out.md"] ∧
    "/mnt/in.pdf" ∉ (background_pipeline ["/mnt/in.pdf"] "/mnt/in.pdf"
        (OcrOutcome.ocrFailAfterWrite "/mnt/out.md") false).1 ∧
    "/mnt/out.md" ∈ (background_pipeline ["/mnt/in.pdf"] "/mnt/in.pdf"
        (OcrOutcome.ocrFailAfterWrite "/mnt/out.md") false).1 := by
  refine ⟨by decide, by decide, by decide⟩

/-- C10: every failure of the inference call inside LLMService.chat_stream
is yielded as one more ordinary string chunk carrying the human-readable
error message, after which the generator ends; the codomain has no error
channel, and the aggregating LLMService.chat accumulates the failure text
into the returned answer exactly like answer content. -/
theorem C10_stream_failure_as_content :
    ∀ (timeoutSecs : Nat) (lines : List VllmLine) (k : FailKind),
      chat_stream timeoutSecs (.stream lines (some k)) =
        processLines lines ++ [failMessage timeoutSecs k] ∧
      chat_stream timeoutSecs (.immediateFailure k) =
        [failMessage timeoutSecs k] ∧
      chat timeoutSecs (.stream lines (some k)) =
        chat timeoutSecs (.stream lines none) ++ failMessage timeoutSecs k := by
  intro t lines k
  refine ⟨rfl, rfl, ?_⟩
  unfold chat
  rw [show chat_stream t (.stream lines (some k)) =
        processLines lines ++ [failMessage t k] from rfl]
  rw [show chat_stream t (.stream lines none) = processLines lines from rfl]
  rw [List.foldl_append]
  rfl

/-- C2: for every completed streaming chat turn, the concatenation in
emission order of the text of all content events equals the assistant
message persisted to the session history for that turn, both for the
endpoint stream_generator (the ai append) and for the chains astream_rag
interface (the assistant append). -/
theorem C2_content_equals_persisted :
    ∀ (message : String) (events : List StreamEvent)
      (question : String) (chunks : List String),
      appendsOf (streamTrace message events none) =
        [("human", message),
         ("ai", contentConcat (emittedOf (streamTrace message events none)))] ∧
      appendsOf (astream_rag_trace question chunks) =
        [("user", question),
         ("assistant",
          contentConcat (emittedOf (astream_rag_trace question chunks)))] := by
  intro m evs q chunks
  constructor
  · have htr : streamTrace m evs none =
        ((SSEvent.status "Understanding context..." :: (runEvents evs "" []).2.2
            ++ sourcesEvent (runEvents evs "" []).2.1).map Action.emit)
          ++ [.append "human" m, .append "ai" (runEvents evs "" []).1,
              .emit .done] := by
      simp [streamTrace, List.map_append]
    rw [htr, appendsOf_append, emittedOf_append, appendsOf_emits, emittedOf_emits]
    have hfull := runEvents_content evs "" []
    have hcc :
        contentConcat ((SSEvent.status "Understanding context..."
            :: (runEvents evs "" []).2.2
            ++ sourcesEvent (runEvents evs "" []).2.1)
          ++ emittedOf [.append "human" m,
              .append "ai" (runEvents evs "" []).1, .emit .done]) =
          contentConcat (runEvents evs "" []).2.2 := by
      rw [show (SSEvent.status "Understanding context..."
            :: (runEvents evs "" []).2.2
            ++ sourcesEvent (runEvents evs "" []).2.1)
          = SSEvent.status "Understanding context..."
            :: ((runEvents evs "" []).2.2
              ++ sourcesEvent (runEvents evs "" []).2.1) from rfl]
      rw [show emittedOf [Action.append "human" m,
            Action.append "ai" (runEvents evs "" []).1, Action.emit .done]
          = [SSEvent.done] from rfl]
      rw [contentConcat_append, contentConcat_status,
        contentConcat_sourcesEvent_right]
      simp [contentConcat, concatStrings]
    rw [hcc]
    simp [appendsOf]
    rw [hfull]
    simp
  · have htr : astream_rag_trace q chunks =
        Action.append "user" q
          :: ((chunks.map SSEvent.content).map Action.emit
            ++ [Action.append "assistant" (concatStrings chunks)]) := by
      simp [astream_rag_trace]
    rw [htr]
    show ("user", q) :: appendsOf ((chunks.map SSEvent.content).map Action.emit
        ++ [Action.append "assistant" (concatStrings chunks)]) = _
    rw [appendsOf_append, appendsOf_emits]
    have he : emittedOf (Action.append "user" q
        :: ((chunks.map SSEvent.content).map Action.emit
          ++ [Action.append "assistant" (concatStrings chunks)]))
        = chunks.map SSEvent.content := by
      show emittedOf ((chunks.map SSEvent.content).map Action.emit
        ++ [Action.append "assistant" (concatStrings chunks)]) = _
      rw [emittedOf_append, emittedOf_emits]
      simp [emittedOf]
    rw [he, contentConcat_contents]
    simp [appendsOf]

/-- C6: every streaming chat request ends with the terminal done sentinel
as the last emitted event, and on every failure path an error event
carrying the exception text is emitted and the done sentinel still
follows it, so the sentinel is unconditional. -/
theorem C6_done_sentinel_unconditional :
    ∀ (message : String) (events : List StreamEvent)
      (failure : Option (FailPoint × String)),
      (emittedOf (streamTrace message events failure)).getLast?
        = some SSEvent.done ∧
      (∀ fp msg, failure = some (fp, msg) →
          ∃ pre, emittedOf (streamTrace message events failure) =
            pre ++ [SSEvent.error msg, SSEvent.done]) := by
  intro m evs failure
  match failure with
  | none =>
      refine ⟨?_, by intro fp msg h; cases h⟩
      have htr : emittedOf (streamTrace m evs none) =
          (SSEvent.status "Understanding context..." :: (runEvents evs "" []).2.2
            ++ sourcesEvent (runEvents evs "" []).2.1) ++ [SSEvent.done] := by
        have h1 : streamTrace m evs none =
            ((SSEvent.status "Understanding context..."
                :: (runEvents evs "" []).2.2
                ++ sourcesEvent (runEvents evs "" []).2.1).map Action.emit)
              ++ [.append "human" m, .append "ai" (runEvents evs "" []).1,
                  .emit .done] := by
          simp [streamTrace, List.map_append]
        rw [h1, emittedOf_append, emittedOf_emits]
        rfl
      rw [htr]
      exact List.getLast?_concat _
  | some (FailPoint.inLoop, msg) =>
      have htr : emittedOf (streamTrace m evs (some (FailPoint.inLoop, msg))) =
          (SSEvent.status "Understanding context..."
            :: (runEvents evs "" []).2.2)
            ++ [SSEvent.error msg, SSEvent.done] := by
        have h1 : streamTrace m evs (some (FailPoint.inLoop, msg)) =
            ((SSEvent.status "Understanding context..."
                :: (runEvents evs "" []).2.2).map Action.emit)
              ++ [.emit (.error msg), .emit .done] := by
          simp [streamTrace]
        rw [h1, emittedOf_append, emittedOf_emits]
        rfl
      refine ⟨?_, ?_⟩
      · rw [htr]; exact getLast?_append_pair _ _ _
      · intro fp msg2 h
        injection h with h1
        injection h1 with h2 h3
        subst h3
        exact ⟨_, htr⟩
  | some (FailPoint.inHumanSave, msg) =>
      have htr : emittedOf (streamTrace m evs (some (FailPoint.inHumanSave, msg))) =
          (SSEvent.status "Understanding context..." :: (runEvents evs "" []).2.2
            ++ sourcesEvent (runEvents evs "" []).2.1)
            ++ [SSEvent.error msg, SSEvent.done] := by
        have h1 : streamTrace m evs (some (FailPoint.inHumanSave, msg)) =
            ((SSEvent.status "Understanding context..."
                :: (runEvents evs "" []).2.2
                ++ sourcesEvent (runEvents evs "" []).2.1).map Action.emit)
              ++ [.emit (.error msg), .emit .done] := by
          simp [streamTrace, List.map_append]
        rw [h1, emittedOf_append, emittedOf_emits]
        rfl
      refine ⟨?_, ?_⟩
      · rw [htr]; exact getLast?_append_pair _ _ _
      · intro fp msg2 h
        injection h with h1
        injection h1 with h2 h3
        subst h3
        exact ⟨_, htr⟩
  | some (FailPoint.inAiSave, msg) =>
      have htr : emittedOf (streamTrace m evs (some (FailPoint.inAiSave, msg))) =
          (SSEvent.status "Understanding context..." :: (runEvents evs "" []).2.2
            ++ sourcesEvent (runEvents evs "" []).2.1)
            ++ [SSEvent.error msg, SSEvent.done] := by
        have h1 : streamTrace m evs (some (FailPoint.inAiSave, msg)) =
            ((SSEvent.status "Understanding context..."
                :: (runEvents evs "" []).2.2
                ++ sourcesEvent (runEvents evs "" []).2.1).map Action.emit)
              ++ [.append "human" m, .emit (.error msg), .emit .done] := by
          simp [streamTrace, List.map_append]
        rw [h1, emittedOf_append, emittedOf_emits]
        rfl
      refine ⟨?_, ?_⟩
      · rw [htr]; exact getLast?_append_pair _ _ _
      · intro fp msg2 h
        injection h with h1
        injection h1 with h2 h3
        subst h3
        exact ⟨_, htr⟩

/-- C6 witness: a concrete failing run emits an error event followed by
the done sentinel at the end of the stream. -/
theorem C6_done_sentinel_unconditional_witness :
    ∃ pre, emittedOf (streamTrace "hi" [] (some (FailPoint.inLoop, "boom"))) =
      pre ++ [SSEvent.error "boom", SSEvent.done] :=
  (C6_done_sentinel_unconditional "hi" [] (some (FailPoint.inLoop, "boom"))).2
    FailPoint.inLoop "boom" rfl

/-- C8: in every completed streaming turn the trace is a block of pure
emissions followed by the append of the user message, then the append of
the assistant message holding the fully accumulated answer, then the
done sentinel: the two history appends happen in that fixed order, and
the assistant append happens only after every content emission. -/
theorem C8_turn_append_ordering :
    ∀ (message : String) (events : List StreamEvent),
      ∃ pre, streamTrace message events none =
          pre ++ [Action.append "human" message,
                  Action.append "ai" (runEvents events "" []).1,
                  Action.emit SSEvent.done] ∧
        pre.all isEmit = true := by
  intro m evs
  refine ⟨(SSEvent.status "Understanding context..." :: (runEvents evs "" []).2.2
      ++ sourcesEvent (runEvents evs "" []).2.1).map Action.emit, ?_, ?_⟩
  · simp [streamTrace, List.map_append]
  · exact all_isEmit_map_emit _

/-- C4 counterexample: the claim states that with a non-empty
conversation history the query-rewrite step issues exactly one extra
generation call.  In the code, get_rag_prompt_messages performs no
rewrite at all: at a concrete non-empty history the number of generation
calls issued while building the retrieval query and prompt is 0, not 1. -/
theorem C4_rewrite_extra_call_counterexample :
    (get_rag_prompt_messages "员工怎么请假" "s1"
        [("user", "你好"), ("assistant", "你好，请问有什么可以帮您")]
        fun _ => []).effects.count RagEffect.generationCall ≠ 1 := by
  decide

/-- C4 amended: the query step of get_rag_prompt_messages is the identity
for every history, empty or not: the question is used verbatim as the
retrieval query, and zero extra generation calls are issued (the only
external calls are the history fetch and the one retriever search). -/
theorem C4_rewrite_identity_no_extra_calls :
    ∀ (question sessionId : String) (history : List (String × String))
      (retriever : String → List Document),
      (get_rag_prompt_messages question sessionId history retriever).effects =
        [RagEffect.historyFetch sessionId, RagEffect.retrieverCall question] ∧
      (get_rag_prompt_messages question sessionId history retriever).effects.count
        RagEffect.generationCall = 0 := by
  intro q s h r
  refine ⟨rfl, ?_⟩
  show List.count RagEffect.generationCall
    [RagEffect.historyFetch s, RagEffect.retrieverCall q] = 0
  simp [List.count_cons]

/-- C7 counterexample: the claim states that with an empty final chunk
set the context injected into the generation prompt is a placeholder and
never the empty string.  In the code, format_docs of the empty document
list is the empty string, and the system message of the prompt carries an
empty context slot. -/
theorem C7_empty_context_counterexample :
    rag_context [] = "" ∧
    (get_rag_prompt_messages "员工怎么请假" "s1" [] fun _ => []).messages.head? =
      some (PromptMsg.system (ragSystemTemplate "")) := by
  exact ⟨rfl, rfl⟩

/-- C7 amended: for every chat turn in which retrieval yields an empty
final chunk set, the context text injected into the generation prompt is
the empty string (no placeholder is inserted), and the system message is
the template with an empty context slot. -/
theorem C7_empty_retrieval_gives_empty_context :
    ∀ (question sessionId : String) (history : List (String × String))
      (retriever : String → List Document),
      retriever question = [] →
      rag_context (retriever question) = "" ∧
      (get_rag_prompt_messages question sessionId history retriever).messages.head?
        = some (PromptMsg.system (ragSystemTemplate "")) := by
  intro q s h r hr
  have hce : rag_context ([] : List Document) = "" := rfl
  refine ⟨by rw [hr, hce], ?_⟩
  show ((get_rag_prompt_messages q s h r).messages).head? = _
  rw [show (get_rag_prompt_messages q s h r).messages =
    PromptMsg.system (ragSystemTemplate (rag_context (r q)))
      :: format_history_for_prompt h ++ [PromptMsg.human q] from rfl]
  rw [hr, hce]
  rfl

/-- C7 witness: the amended property at a concrete retriever returning
no documents. -/
theorem C7_empty_retrieval_gives_empty_context_witness :
    rag_context ((fun _ => ([] : List Document)) "q") = "" ∧
    (get_rag_prompt_messages "q" "s1" [("user", "hi")]
        fun _ => ([] : List Document)).messages.head? =
      some (PromptMsg.system (ragSystemTemplate "")) :=
  C7_empty_retrieval_gives_empty_context "q" "s1" [("user", "hi")]
    (fun _ => []) rfl

/-- C9: each file of an upload batch is processed independently: removing
an unaccepted file (unsupported extension or failed save) from the batch
changes neither the accepted list nor the queued background tasks of the
other files, and the unaccepted file itself lands in the rejected list
under its own name. -/
theorem C9_batch_isolation :
    ∀ (pre post : List UploadFile) (bad : UploadFile),
      fileAccepted bad = false →
      (upload_knowledge_file (pre ++ bad :: post)).success_files =
        (upload_knowledge_file (pre ++ post)).success_files ∧
      (upload_knowledge_file (pre ++ bad :: post)).queued =
        (upload_knowledge_file (pre ++ post)).queued ∧
      ∃ reason, (bad.filename, reason) ∈
        (upload_knowledge_file (pre ++ bad :: post)).failed_files := by
  intro pre post bad h
  obtain ⟨reason, hr⟩ := fileRejection_of_not_accepted bad h
  rw [upload_knowledge_file_eq, upload_knowledge_file_eq]
  refine ⟨?_, ?_, ⟨reason, ?_⟩⟩
  · simp [List.filter_append, List.filter_cons, h]
  · simp [List.filter_append, List.filter_cons, h]
  · simp [List.filterMap_append, List.filterMap_cons, hr]

/-- C9 witness: in a concrete batch of three files where the middle one
has an unsupported extension, the accepted and queued lists are those of
the two good files and the bad file is rejected. -/
theorem C9_batch_isolation_witness :
    (upload_knowledge_file
        [⟨"a.pdf", true⟩, ⟨"b.exe", true⟩, ⟨"c.png", true⟩]).success_files =
      (upload_knowledge_file [⟨"a.pdf", true⟩, ⟨"c.png", true⟩]).success_files ∧
    (upload_knowledge_file
        [⟨"a.pdf", true⟩, ⟨"b.exe", true⟩, ⟨"c.png", true⟩]).queued =
      (upload_knowledge_file [⟨"a.pdf", true⟩, ⟨"c.png", true⟩]).queued ∧
    ∃ reason, ("b.exe", reason) ∈
      (upload_knowledge_file
        [⟨"a.pdf", true⟩, ⟨"b.exe", true⟩, ⟨"c.png", true⟩]).failed_files := by
  have h := C9_batch_isolation [⟨"a.pdf", true⟩] [⟨"c.png", true⟩]
    ⟨"b.exe", true⟩ (by decide)
  exact ⟨h.1, h.2.1, h.2.2⟩

end ChatBot
